import Mathlib

/-!
# Verification of the Plinko provably-fair core

A shallow embedding of the provably-fair Plinko engine
(`src/utils/prng.ts`, `src/utils/crypto.ts`, `src/lib/engine.ts`,
the fairness helpers and the `/api/verify` route) together with proofs
of the specified properties.

Modelling conventions:
* JavaScript 32-bit integer operations become `Nat` arithmetic with an
  explicit `% 2 ^ 32` where overflow/truncation matters.
* JavaScript numbers occurring in the game formulas are modelled as
  exact rationals (`ℚ`).  Every constant involved (`0.5`, `0.2`, `0.01`,
  `n / 2^32`) is written as the exact rational the source text denotes.
* The mutable `Xorshift32` object becomes explicit state passing: each
  draw returns the value together with the successor generator.
* Fallible functions (`seedPRNG`, the API route) return `Except`.
-/

namespace Plinko

/-! ## Xorshift32 (`src/utils/prng.ts`)

`nextInt` is the Marsaglia xorshift step:
```
let x = this.state;
x ^= (x << 13);
x ^= (x >>> 17);
x ^= (x << 5);
this.state = x >>> 0;
return this.state;
```
JavaScript `<<` truncates to 32 bits and `>>>` is a logical shift, so on a
state below `2 ^ 32` the step is exactly the function below. -/

/-- One xorshift32 state update on a 32-bit state, as pure arithmetic. -/
def nextIntState (s : Nat) : Nat :=
  let x1 := s ^^^ ((s <<< 13) % 2 ^ 32)
  let x2 := x1 ^^^ (x1 >>> 17)
  x2 ^^^ ((x2 <<< 5) % 2 ^ 32)

/-- The `Xorshift32` object: its single mutable field. -/
structure Xorshift32 where
  state : Nat
  deriving DecidableEq, Repr

/-- The constructor `this.state = (seed >>> 0) || 1`. -/
def mkXorshift32 (seed : Nat) : Xorshift32 :=
  ⟨if seed % 2 ^ 32 = 0 then 1 else seed % 2 ^ 32⟩

/-- `nextInt()`: advance the state and return the new state. -/
def Xorshift32.nextInt (g : Xorshift32) : Nat × Xorshift32 :=
  let s := nextIntState g.state
  (s, ⟨s⟩)

/-- `rand()`: `this.nextInt() / 0x100000000`, as an exact rational. -/
def Xorshift32.rand (g : Xorshift32) : ℚ × Xorshift32 :=
  let (n, g1) := g.nextInt
  ((n : ℚ) / 2 ^ 32, g1)

/-- The generator after `n` draws. -/
def advance (g : Xorshift32) (n : Nat) : Xorshift32 :=
  ⟨nextIntState^[n] g.state⟩

/-- The value of the `n`-th draw (0-indexed) from generator `g`. -/
def drawValue (g : Xorshift32) (n : Nat) : ℚ :=
  ((nextIntState^[n + 1] g.state : Nat) : ℚ) / 2 ^ 32

/-! ## Hex decoding and `seedPRNG`

`Buffer.from(hex, "hex")` decodes leading pairs of hex digits and stops at
the first invalid pair (or at a trailing lone digit). -/

/-- Numeric value of a hex digit, `none` on a non-hex character
(codepoints 48-57 are `0`-`9`, 97-102 are `a`-`f`, 65-70 are `A`-`F`). -/
def hexDigitVal (c : Char) : Option Nat :=
  if 48 ≤ c.toNat ∧ c.toNat ≤ 57 then some (c.toNat - 48)
  else if 97 ≤ c.toNat ∧ c.toNat ≤ 102 then some (c.toNat - 97 + 10)
  else if 65 ≤ c.toNat ∧ c.toNat ≤ 70 then some (c.toNat - 65 + 10)
  else none

/-- Decode leading hex-digit pairs into bytes, Node `Buffer.from(·, "hex")`
style: stop at the first pair that is not two hex digits. -/
def hexPairs : List Char → List Nat
  | c1 :: c2 :: rest =>
    match hexDigitVal c1, hexDigitVal c2 with
    | some hi, some lo => (hi * 16 + lo) :: hexPairs rest
    | _, _ => []
  | _ => []

/-- The bytes `Buffer.from(s, "hex")` yields. -/
def hexDecode (s : String) : List Nat := hexPairs s.data

/-- `buf.readUInt32BE(0)`: the first four bytes, big-endian. -/
def readUInt32BE (bs : List Nat) : Nat :=
  bs.getD 0 0 * 2 ^ 24 + bs.getD 1 0 * 2 ^ 16 + bs.getD 2 0 * 2 ^ 8 + bs.getD 3 0

/-- The two failure conditions of `seedPRNG` (both "invalid seed material"). -/
inductive SeedError where
  /-- `combinedSeedHex must be a hex string with at least 8 chars` -/
  | tooShort
  /-- `combinedSeedHex must contain at least 4 bytes (8 hex chars)` -/
  | tooFewBytes
  deriving DecidableEq, Repr

/-- `seedPRNG` from `src/utils/prng.ts`: guard the string length, decode the
hex, guard the byte count, then seed from the first 4 bytes big-endian. -/
def seedPRNG (combinedSeedHex : String) : Except SeedError Xorshift32 :=
  if combinedSeedHex.length < 8 then
    .error .tooShort
  else
    let buf := hexDecode combinedSeedHex
    if buf.length < 4 then
      .error .tooFewBytes
    else
      .ok (mkXorshift32 (readUInt32BE buf))

/-! ## SHA-256 (`src/utils/crypto.ts` / Node `createHash("sha256")`)

Both hashing entry points of the repository (`crypto.createHash("sha256")`
in `prng.ts` and the `sha256` helper of `utils/crypto.ts`) compute the
standard SHA-256 hex digest of the UTF-8 bytes of their input.  We embed
the FIPS 180-4 algorithm itself, over byte lists, with 32-bit words as
`Nat` reduced `% 2 ^ 32`; the §8 test vectors of the spec check it below. -/

/-- Right rotation of a 32-bit word. -/
def rotr32 (n x : Nat) : Nat := ((x >>> n) ||| (x <<< (32 - n))) % 2 ^ 32

/-- Bitwise complement within 32 bits. -/
def not32 (x : Nat) : Nat := x ^^^ 0xffffffff

/-- SHA-256 `Ch`. -/
def shaCh (x y z : Nat) : Nat := (x &&& y) ^^^ (not32 x &&& z)

/-- SHA-256 `Maj`. -/
def shaMaj (x y z : Nat) : Nat := (x &&& y) ^^^ (x &&& z) ^^^ (y &&& z)

/-- SHA-256 `Σ0`. -/
def bigSigma0 (x : Nat) : Nat := rotr32 2 x ^^^ rotr32 13 x ^^^ rotr32 22 x

/-- SHA-256 `Σ1`. -/
def bigSigma1 (x : Nat) : Nat := rotr32 6 x ^^^ rotr32 11 x ^^^ rotr32 25 x

/-- SHA-256 `σ0`. -/
def smallSigma0 (x : Nat) : Nat := rotr32 7 x ^^^ rotr32 18 x ^^^ (x >>> 3)

/-- SHA-256 `σ1`. -/
def smallSigma1 (x : Nat) : Nat := rotr32 17 x ^^^ rotr32 19 x ^^^ (x >>> 10)

/-- The 64 SHA-256 round constants (FIPS 180-4 §4.2.2), in decimal. -/
def sha256K : List Nat :=
  [1116352408, 1899447441, 3049323471, 3921009573, 961987163,
   1508970993, 2453635748, 2870763221, 3624381080, 310598401,
   607225278, 1426881987, 1925078388, 2162078206, 2614888103,
   3248222580, 3835390401, 4022224774, 264347078, 604807628,
   770255983, 1249150122, 1555081692, 1996064986, 2554220882,
   2821834349, 2952996808, 3210313671, 3336571891, 3584528711,
   113926993, 338241895, 666307205, 773529912, 1294757372,
   1396182291, 1695183700, 1986661051, 2177026350, 2456956037,
   2730485921, 2820302411, 3259730800, 3345764771, 3516065817,
   3600352804, 4094571909, 275423344, 430227734, 506948616,
   659060556, 883997877, 958139571, 1322822218, 1537002063,
   1747873779, 1955562222, 2024104815, 2227730452, 2361852424,
   2428436474, 2756734187, 3204031479, 3329325298]

/-- `v` as `n` big-endian bytes. -/
def beBytes : Nat → Nat → List Nat
  | 0, _ => []
  | n + 1, v => v / 2 ^ (8 * n) % 256 :: beBytes n v

/-- FIPS padding: append `0x80`, zeros to 56 mod 64, then the bit length
as 8 big-endian bytes. -/
def sha256Pad (msg : List Nat) : List Nat :=
  let L := msg.length
  msg ++ [0x80] ++ List.replicate ((119 - L % 64) % 64) 0 ++ beBytes 8 (8 * L)

/-- Group bytes into big-endian 32-bit words. -/
def toWords : List Nat → List Nat
  | b0 :: b1 :: b2 :: b3 :: rest =>
    (b0 * 2 ^ 24 + b1 * 2 ^ 16 + b2 * 2 ^ 8 + b3) :: toWords rest
  | _ => []

/-- Append the next word of the message schedule. -/
def scheduleStep (w : List Nat) : List Nat :=
  let i := w.length
  w ++ [(w.getD (i - 16) 0 + smallSigma0 (w.getD (i - 15) 0) +
         w.getD (i - 7) 0 + smallSigma1 (w.getD (i - 2) 0)) % 2 ^ 32]

/-- Extend 16 message words to the 64-entry schedule. -/
def fullSchedule (w16 : List Nat) : List Nat := scheduleStep^[48] w16

/-- The eight 32-bit working variables of the compression function. -/
structure Hash8 where
  a : Nat
  b : Nat
  c : Nat
  d : Nat
  e : Nat
  f : Nat
  g : Nat
  h : Nat
  deriving DecidableEq, Repr

/-- One SHA-256 round. -/
def compressRound (st : Hash8) (kw : Nat × Nat) : Hash8 :=
  let t1 := (st.h + bigSigma1 st.e + shaCh st.e st.f st.g + kw.1 + kw.2) % 2 ^ 32
  let t2 := (bigSigma0 st.a + shaMaj st.a st.b st.c) % 2 ^ 32
  ⟨(t1 + t2) % 2 ^ 32, st.a, st.b, st.c, (st.d + t1) % 2 ^ 32, st.e, st.f, st.g⟩

/-- Component-wise addition mod `2 ^ 32`. -/
def add8 (x y : Hash8) : Hash8 :=
  ⟨(x.a + y.a) % 2 ^ 32, (x.b + y.b) % 2 ^ 32, (x.c + y.c) % 2 ^ 32, (x.d + y.d) % 2 ^ 32,
   (x.e + y.e) % 2 ^ 32, (x.f + y.f) % 2 ^ 32, (x.g + y.g) % 2 ^ 32, (x.h + y.h) % 2 ^ 32⟩

/-- Compress one 64-byte block into the running hash state. -/
def compressBlock (st : Hash8) (block : List Nat) : Hash8 :=
  add8 st ((sha256K.zip (fullSchedule (toWords block))).foldl compressRound st)

/-- The SHA-256 initial hash value (FIPS 180-4 §5.3.3), in decimal. -/
def sha256Init : Hash8 :=
  ⟨1779033703, 3144134277, 1013904242, 2773480762,
   1359893119, 2600822924, 528734635, 1541459225⟩

/-- Split a byte list into 64-byte blocks (fuel-structured recursion; the
fuel `l.length` always suffices since every step consumes 64 bytes). -/
def chunks64Go : Nat → List Nat → List (List Nat)
  | 0, _ => []
  | _, [] => []
  | fuel + 1, x :: l => (x :: l).take 64 :: chunks64Go fuel ((x :: l).drop 64)

/-- Split a byte list into 64-byte blocks. -/
def chunks64 (l : List Nat) : List (List Nat) := chunks64Go l.length l

/-- SHA-256 of a byte list, as 32 digest bytes. -/
def sha256Bytes (msg : List Nat) : List Nat :=
  let st := (chunks64 (sha256Pad msg)).foldl compressBlock sha256Init
  beBytes 4 st.a ++ beBytes 4 st.b ++ beBytes 4 st.c ++ beBytes 4 st.d ++
  beBytes 4 st.e ++ beBytes 4 st.f ++ beBytes 4 st.g ++ beBytes 4 st.h

/-- Lower-case hex character of a value below 16. -/
def hexChar (n : Nat) : Char :=
  if n < 10 then Char.ofNat ('0'.toNat + n) else Char.ofNat ('a'.toNat + n - 10)

/-- Two lower-case hex characters of a byte. -/
def byteToHex (b : Nat) : List Char := [hexChar (b / 16), hexChar (b % 16)]

/-- Lower-case hex string of a byte list. -/
def bytesToHex (bs : List Nat) : String := ⟨(bs.map byteToHex).flatten⟩

/-- UTF-8 encoding of one character. -/
def utf8Char (c : Char) : List Nat :=
  let n := c.toNat
  if n < 0x80 then [n]
  else if n < 0x800 then [0xc0 + n / 64, 0x80 + n % 64]
  else if n < 0x10000 then [0xe0 + n / 4096, 0x80 + n / 64 % 64, 0x80 + n % 64]
  else [0xf0 + n / 262144, 0x80 + n / 4096 % 64, 0x80 + n / 64 % 64, 0x80 + n % 64]

/-- UTF-8 bytes of a string. -/
def utf8Encode (s : String) : List Nat := (s.data.map utf8Char).flatten

/-- `sha256` of `src/utils/crypto.ts`: hex digest of the UTF-8 bytes. -/
def sha256hex (s : String) : String := bytesToHex (sha256Bytes (utf8Encode s))

/-! ## Commitment and combined seed -/

/-- `commitHexFromParts` (`src/utils/prng.ts`): hash of `` `${serverSeed}:${nonce}` ``. -/
def commitHexFromParts (serverSeed nonce : String) : String :=
  sha256hex (serverSeed ++ ":" ++ nonce)

/-- `combinedSeedFromParts` (`src/utils/prng.ts`): hash of
`` `${serverSeed}:${clientSeed}:${nonce}` ``. -/
def combinedSeedFromParts (serverSeed clientSeed nonce : String) : String :=
  sha256hex (serverSeed ++ ":" ++ clientSeed ++ ":" ++ nonce)

/-- `getCommitHex` (fairness module): `sha256(serverSeed + ":" + nonce)`. -/
def getCommitHex (serverSeed nonce : String) : String :=
  sha256hex (serverSeed ++ ":" ++ nonce)

/-- `getCombinedSeed` (fairness module):
`sha256(serverSeed + ":" + clientSeed + ":" + nonce)`. -/
def getCombinedSeed (serverSeed clientSeed nonce : String) : String :=
  sha256hex (serverSeed ++ ":" ++ clientSeed ++ ":" ++ nonce)

/-- `createPRNG` (fairness module): seed from the combined-seed digest. -/
def createPRNG (combinedSeed : String) : Except SeedError Xorshift32 :=
  seedPRNG combinedSeed

/-! ## The game engine (`src/lib/engine.ts`) -/

/-- `Peg`: a single peg's leftward bias. -/
structure Peg where
  leftBias : ℚ
  deriving DecidableEq, Repr

/-- `PegMap`: the board, an array of peg rows. -/
abbrev PegMap := List (List Peg)

/-- `PathDecision`: the ball's directional decision at a peg. -/
inductive PathDecision where
  | L
  | R
  deriving DecidableEq, Repr

/-- `GAME_ROWS`: the fixed number of rows. -/
def GAME_ROWS : Nat := 12

/-- `parseFloat(x.toFixed(6))`: round to 6 decimal places.  `toFixed`
rounds half away from zero; every bias here is positive, where that
agrees with `round` (half towards `+∞`). -/
def round6 (x : ℚ) : ℚ := ((round (x * 1000000) : ℤ) : ℚ) / 1000000

/-- The stored bias of one peg given its draw `d`:
`0.5 + (d - 0.5) * 0.2`, rounded to 6 decimal places. -/
def pegBias (d : ℚ) : ℚ := round6 (1 / 2 + (d - 1 / 2) * (2 / 10))

/-- The inner loop of `createPegMap`: one row of `n` pegs, each from one
fresh draw. -/
def buildRow : Xorshift32 → Nat → List Peg × Xorshift32
  | g, 0 => ([], g)
  | g, n + 1 =>
    let (d, g1) := g.rand
    let (rest, g2) := buildRow g1 n
    (⟨pegBias d⟩ :: rest, g2)

/-- The outer loop of `createPegMap`: `fuel` rows starting at row `r`,
row `r` holding `r + 1` pegs. -/
def buildRows : Xorshift32 → Nat → Nat → PegMap × Xorshift32
  | g, 0, _ => ([], g)
  | g, fuel + 1, r =>
    let (row, g1) := buildRow g (r + 1)
    let (rest, g2) := buildRows g1 fuel (r + 1)
    (row :: rest, g2)

/-- `createPegMap`: the whole board from the start of the PRNG stream. -/
def createPegMap (prng : Xorshift32) : PegMap × Xorshift32 :=
  buildRows prng GAME_ROWS 0

/-- `Math.max(0, Math.min(1, x))`. -/
def clamp01 (x : ℚ) : ℚ := max 0 (min 1 x)

/-- The out-of-bounds default for board indexing (never reached on boards
of the generated shape, where `min pos r ≤ r` is always in range). -/
def defaultPeg : Peg := ⟨0⟩

/-- `pegMap[r][i]`. -/
def pegAt (pm : PegMap) (r i : Nat) : Peg := (pm.getD r []).getD i defaultPeg

/-- The result record of `calculatePath`. -/
structure PathResult where
  binIndex : Nat
  path : List PathDecision
  deriving DecidableEq, Repr

/-- The row loop of `calculatePath`: `fuel` remaining rows, current row
`r`, right-move counter `pos`. -/
def pathStep (pegMap : PegMap) (adj : ℚ) :
    Xorshift32 → Nat → Nat → Nat → PathResult × Xorshift32
  | g, 0, _, pos => (⟨pos, []⟩, g)
  | g, fuel + 1, r, pos =>
    let pegIndex := min pos r
    let peg := pegAt pegMap r pegIndex
    let finalBias := clamp01 (peg.leftBias + adj)
    let (rnd, g1) := g.rand
    if rnd < finalBias then
      let (res, g2) := pathStep pegMap adj g1 fuel (r + 1) pos
      (⟨res.binIndex, .L :: res.path⟩, g2)
    else
      let (res, g2) := pathStep pegMap adj g1 fuel (r + 1) (pos + 1)
      (⟨res.binIndex, .R :: res.path⟩, g2)

/-- `(dropColumn - Math.floor(GAME_ROWS / 2)) * 0.01`. -/
def leftBiasAdj (dropColumn : ℤ) : ℚ :=
  ((dropColumn : ℚ) - ((GAME_ROWS / 2 : Nat) : ℚ)) * (1 / 100)

/-- `calculatePath`: simulate the ball through all `GAME_ROWS` rows. -/
def calculatePath (prng : Xorshift32) (pegMap : PegMap) (dropColumn : ℤ) :
    PathResult × Xorshift32 :=
  pathStep pegMap (leftBiasAdj dropColumn) prng GAME_ROWS 0 0

/-! ### `JSON.stringify` of a peg map

The rounded biases all have the form `n / 10 ^ 6` with `0 ≤ n ≤ 10 ^ 6`;
for such doubles `JSON.stringify` prints the integer part and the
fractional digits with trailing zeros stripped. -/

/-- Strip trailing `'0'` characters. -/
def stripZeros (l : List Char) : List Char := (l.reverse.dropWhile (· = '0')).reverse

/-- Decimal rendering of a non-negative rational of the form `n / 10^6`,
as `JSON.stringify` prints the rounded biases. -/
def ratToJSON (q : ℚ) : String :=
  let n := (q * 1000000).num.toNat
  let frac := stripZeros ((Nat.toDigits 10 (1000000 + n % 1000000)).drop 1)
  if frac = [] then toString (n / 1000000)
  else toString (n / 1000000) ++ "." ++ ⟨frac⟩

/-- `JSON.stringify` of one peg object. -/
def serializePeg (p : Peg) : String :=
  "\x7b\"leftBias\":" ++ ratToJSON p.leftBias ++ "\x7d"

/-- Join with `","`. -/
def commaJoin : List String → String
  | [] => ""
  | [s] => s
  | s :: rest => s ++ "," ++ commaJoin rest

/-- `JSON.stringify` of one row. -/
def serializeRow (row : List Peg) : String :=
  "[" ++ commaJoin (row.map serializePeg) ++ "]"

/-- `JSON.stringify` of the whole peg map. -/
def serializePegMap (pm : PegMap) : String :=
  "[" ++ commaJoin (pm.map serializeRow) ++ "]"

/-- The result record of `runPlinkoGame`. -/
structure GameResult where
  pegMap : PegMap
  pegMapHash : String
  binIndex : Nat
  path : List PathDecision
  deriving DecidableEq, Repr

/-- `runPlinkoGame`: board generation, board hash, then path resolution,
all on one continuing PRNG stream. -/
def runPlinkoGame (prng : Xorshift32) (dropColumn : ℤ) : GameResult × Xorshift32 :=
  let pm := createPegMap prng
  let pegMapHash := sha256hex (serializePegMap pm.1)
  let res := calculatePath pm.2 pm.1 dropColumn
  (⟨pm.1, pegMapHash, res.1.binIndex, res.1.path⟩, res.2)

/-! ## The `/api/verify` route (`src/app/api/verify/route.ts`) -/

/-- `parseInt(s, 10)`: skip leading spaces, optional sign, then leading
decimal digits; `NaN` (here `none`) when no digit is found. -/
def parseIntJS (s : String) : Option ℤ :=
  let digits := fun l : List Char => l.takeWhile fun c => decide ('0' ≤ c ∧ c ≤ '9')
  let toNat := fun l : List Char => l.foldl (fun acc c => acc * 10 + (c.toNat - '0'.toNat)) 0
  match s.data.dropWhile (· = ' ') with
  | '-' :: rest =>
    if digits rest = [] then none else some (-(toNat (digits rest) : ℤ))
  | '+' :: rest =>
    if digits rest = [] then none else some ((toNat (digits rest) : ℤ))
  | l =>
    if digits l = [] then none else some ((toNat (digits l) : ℤ))

/-- The JSON body of a successful `/api/verify` response. -/
structure VerifyResponse where
  commitHex : String
  combinedSeed : String
  pegMapHash : String
  binIndex : Nat
  path : List PathDecision
  deriving DecidableEq, Repr

/-- `GET /api/verify`: presence check on the four query parameters, the
`isNaN` check on `dropColumn`, then the unconditional re-computation
(a `seedPRNG` throw would be caught as the 500 response; no range check
on `dropColumn` is performed anywhere). -/
def GETverify (serverSeed clientSeed nonce dropColumnStr : String) :
    Except String VerifyResponse :=
  if serverSeed = "" ∨ clientSeed = "" ∨ nonce = "" ∨ dropColumnStr = "" then
    .error "Missing required query parameters."
  else
    match parseIntJS dropColumnStr with
    | none => .error "Invalid dropColumn."
    | some dropColumn =>
      let commitHex := commitHexFromParts serverSeed nonce
      let combinedSeed := combinedSeedFromParts serverSeed clientSeed nonce
      match seedPRNG combinedSeed with
      | .error _ => .error "Failed to re-compute results."
      | .ok prng =>
        let (res, _) := runPlinkoGame prng dropColumn
        .ok ⟨commitHex, combinedSeed, res.pegMapHash, res.binIndex, res.path⟩

/-- The spec's Phase-A closed form: entry `p` of row `r` holds the
rounded bias computed from draw number `r * (r + 1) / 2 + p` of the
stream (row-major draw order). -/
def pegMapFormula (g : Xorshift32) : PegMap :=
  (List.range GAME_ROWS).map fun r =>
    (List.range (r + 1)).map fun p => ⟨pegBias (drawValue g (r * (r + 1) / 2 + p))⟩

/-! ## Generator lemmas -/

/-- The xorshift step keeps the state below `2 ^ 32`. -/
theorem nextIntState_lt (s : Nat) (hs : s < 2 ^ 32) : nextIntState s < 2 ^ 32 := by
  unfold nextIntState
  refine Nat.xor_lt_two_pow (Nat.xor_lt_two_pow ?_ ?_) (Nat.mod_lt _ (by norm_num))
  · exact Nat.xor_lt_two_pow hs (Nat.mod_lt _ (by norm_num))
  · calc (s ^^^ s <<< 13 % 2 ^ 32) >>> 17 ≤ s ^^^ s <<< 13 % 2 ^ 32 := by
          rw [Nat.shiftRight_eq_div_pow]; exact Nat.div_le_self _ _
      _ < 2 ^ 32 := Nat.xor_lt_two_pow hs (Nat.mod_lt _ (by norm_num))

/-- A left-shift-xor stage is degenerate only at zero: if
`(v <<< k) % 2 ^ 32 = v` and `2 ^ k - 1` is coprime to `2 ^ 32`,
then `v = 0`. -/
theorem shl_fixed_eq_zero (k v : Nat) (hco : Nat.Coprime (2 ^ 32) (2 ^ k - 1))
    (h : (v <<< k) % 2 ^ 32 = v) : v = 0 := by
  have hvlt : v < 2 ^ 32 := h ▸ Nat.mod_lt _ (by norm_num)
  have hmod : v * 2 ^ k ≡ v [MOD 2 ^ 32] := by
    unfold Nat.ModEq
    rw [Nat.shiftLeft_eq] at h
    rw [h, Nat.mod_eq_of_lt hvlt]
  have hle : v ≤ v * 2 ^ k := Nat.le_mul_of_pos_right v (Nat.pos_pow_of_pos k (by norm_num))
  have hdvd : 2 ^ 32 ∣ v * 2 ^ k - v := (Nat.modEq_iff_dvd' hle).mp hmod.symm
  have hfact : v * 2 ^ k - v = v * (2 ^ k - 1) := by
    rw [Nat.mul_sub, Nat.mul_one]
  rw [hfact] at hdvd
  exact Nat.eq_zero_of_dvd_of_lt (hco.dvd_of_dvd_mul_right hdvd) hvlt

/-- A right-shift-xor stage is degenerate only at zero. -/
theorem shr_fixed_eq_zero (k v : Nat) (hk : 0 < k) (h : v >>> k = v) : v = 0 := by
  by_contra hv
  have hlt : v / 2 ^ k < v :=
    Nat.div_lt_self (Nat.pos_of_ne_zero hv) (Nat.one_lt_two_pow_iff.mpr (by omega))
  rw [Nat.shiftRight_eq_div_pow] at h
  exact absurd h (ne_of_lt hlt)

/-- The xorshift step never maps a non-zero 32-bit state to zero. -/
theorem nextIntState_ne_zero (s : Nat) (hs : s ≠ 0) (_hlt : s < 2 ^ 32) :
    nextIntState s ≠ 0 := by
  unfold nextIntState
  intro h
  have h3 := Nat.xor_eq_zero.mp h
  have h2 : (s ^^^ s <<< 13 % 2 ^ 32) ^^^ (s ^^^ s <<< 13 % 2 ^ 32) >>> 17 = 0 := by
    have := shl_fixed_eq_zero 5 _ (by decide) h3.symm
    omega
  have h2' := Nat.xor_eq_zero.mp h2
  have h1 : s ^^^ s <<< 13 % 2 ^ 32 = 0 := shr_fixed_eq_zero 17 _ (by norm_num) h2'.symm
  exact hs (shl_fixed_eq_zero 13 _ (by decide) (Nat.xor_eq_zero.mp h1).symm)

/-- The constructed state is non-zero. -/
theorem mkXorshift32_state_ne_zero (seed : Nat) : (mkXorshift32 seed).state ≠ 0 := by
  unfold mkXorshift32
  split <;> simp_all

/-- The constructed state is a 32-bit value. -/
theorem mkXorshift32_state_lt (seed : Nat) : (mkXorshift32 seed).state < 2 ^ 32 := by
  unfold mkXorshift32
  split
  · norm_num
  · exact Nat.mod_lt _ (by norm_num)

/-- Iterating the step from a constructed seed stays non-zero and 32-bit. -/
theorem advance_state_ne_zero (seed n : Nat) :
    (advance (mkXorshift32 seed) n).state ≠ 0 ∧
      (advance (mkXorshift32 seed) n).state < 2 ^ 32 := by
  induction n with
  | zero => exact ⟨mkXorshift32_state_ne_zero seed, mkXorshift32_state_lt seed⟩
  | succ n ih =>
    have hstep : (advance (mkXorshift32 seed) (n + 1)).state =
        nextIntState (advance (mkXorshift32 seed) n).state := by
      unfold advance
      simp [Function.iterate_succ_apply']
    rw [hstep]
    exact ⟨nextIntState_ne_zero _ ih.1 ih.2, nextIntState_lt _ ih.2⟩

/-! ## Hex-decoding lemmas -/

/-- A decoded hex digit is below 16. -/
theorem hexDigitVal_lt (c : Char) (v : Nat) (h : hexDigitVal c = some v) : v < 16 := by
  unfold hexDigitVal at h
  split at h
  · rename_i hc
    cases h
    omega
  · split at h
    · rename_i hc
      cases h
      omega
    · split at h
      · rename_i hc
        cases h
        omega
      · cases h

/-- Hex decoding yields at most one byte per two characters. -/
theorem hexPairs_length_le : ∀ l : List Char, (hexPairs l).length ≤ l.length / 2
  | [] => by simp [hexPairs]
  | [_] => by simp [hexPairs]
  | c1 :: c2 :: rest => by
    have ih := hexPairs_length_le rest
    simp only [hexPairs]
    cases hexDigitVal c1 <;> cases hexDigitVal c2
    all_goals simp
    all_goals omega

/-- Every decoded byte is below 256. -/
theorem hexPairs_lt : ∀ l : List Char, ∀ b ∈ hexPairs l, b < 256
  | [] => by simp [hexPairs]
  | [_] => by simp [hexPairs]
  | c1 :: c2 :: rest => by
    simp only [hexPairs]
    cases h1 : hexDigitVal c1 <;> cases h2 : hexDigitVal c2 <;> simp
    constructor
    · have := hexDigitVal_lt c1 _ h1
      have := hexDigitVal_lt c2 _ h2
      omega
    · exact fun b hb => hexPairs_lt rest b hb

/-- `getD` on a list of bytes stays below 256. -/
theorem getD_lt_of_bytes : ∀ (bs : List Nat), (∀ b ∈ bs, b < 256) → ∀ i, bs.getD i 0 < 256
  | [], _, i => by simp [List.getD]
  | b :: _, h, 0 => by simpa using h b (by simp)
  | _ :: bs, h, i + 1 => by
    simp only [List.getD_cons_succ]
    exact getD_lt_of_bytes bs (fun x hx => h x (by simp [hx])) i

/-- A big-endian read of bytes is a 32-bit value. -/
theorem readUInt32BE_lt (bs : List Nat) (h : ∀ b ∈ bs, b < 256) :
    readUInt32BE bs < 2 ^ 32 := by
  have h0 := getD_lt_of_bytes bs h 0
  have h1 := getD_lt_of_bytes bs h 1
  have h2 := getD_lt_of_bytes bs h 2
  have h3 := getD_lt_of_bytes bs h 3
  unfold readUInt32BE
  omega

/-- **C4**: whenever at least 4 bytes are decodable from the digest string,
`seedPRNG` succeeds and the generator's initial state is the first 4
decoded bytes read as a big-endian unsigned 32-bit integer, with the
single exception that a zero value is replaced by 1. -/
theorem C4_seed_from_digest (s : String) (h4 : 4 ≤ (hexDecode s).length) :
    seedPRNG s = .ok (mkXorshift32 (readUInt32BE (hexDecode s))) ∧
    readUInt32BE (hexDecode s) =
      ((hexDecode s).take 4).foldl (fun a b => a * 256 + b) 0 ∧
    (mkXorshift32 (readUInt32BE (hexDecode s))).state =
      (if readUInt32BE (hexDecode s) = 0 then 1 else readUInt32BE (hexDecode s)) := by
  have hlen := hexPairs_length_le s.data
  have h4' : 4 ≤ (hexPairs s.data).length := h4
  have hslen : ¬ s.length < 8 := by
    show ¬ s.data.length < 8
    omega
  refine ⟨?_, ?_, ?_⟩
  · unfold seedPRNG
    rw [if_neg hslen]
    dsimp only
    rw [if_neg (not_lt.mpr h4)]
  · rcases hbs : hexDecode s with _ | ⟨b0, _ | ⟨b1, _ | ⟨b2, _ | ⟨b3, t⟩⟩⟩⟩ <;>
      simp [hbs] at h4 ⊢
    unfold readUInt32BE
    simp
    ring
  · have hv : readUInt32BE (hexDecode s) < 2 ^ 32 :=
      readUInt32BE_lt _ (hexPairs_lt s.data)
    unfold mkXorshift32
    rw [Nat.mod_eq_of_lt hv]

/-- **C4** witness: the §8 combined-seed digest decodes to a generator in
state `0xe1dddf77`. -/
theorem C4_seed_from_digest_witness :
    4 ≤ (hexDecode "e1dddf77de27d395ea2be2ed49aa2a59bd6bf12ee8d350c16c008abd406c07e0").length ∧
    seedPRNG "e1dddf77de27d395ea2be2ed49aa2a59bd6bf12ee8d350c16c008abd406c07e0" =
      .ok (mkXorshift32 (readUInt32BE
        (hexDecode "e1dddf77de27d395ea2be2ed49aa2a59bd6bf12ee8d350c16c008abd406c07e0"))) :=
  ⟨by decide,
   (C4_seed_from_digest
     "e1dddf77de27d395ea2be2ed49aa2a59bd6bf12ee8d350c16c008abd406c07e0" (by decide)).1⟩

/-- **C5**: `seedPRNG` fails exactly when fewer than 4 bytes are decodable
from the digest string; otherwise it returns a seeded generator. -/
theorem C5_invalid_seed_material (s : String) :
    (seedPRNG s).toOption = none ↔ (hexDecode s).length < 4 := by
  have hlen := hexPairs_length_le s.data
  unfold seedPRNG
  split
  · rename_i hshort
    have hshort' : s.data.length < 8 := hshort
    simp only [Except.toOption, true_iff]
    show (hexPairs s.data).length < 4
    omega
  · dsimp only
    split
    · rename_i hfew
      simpa [Except.toOption] using hfew
    · rename_i hfew
      simpa [Except.toOption] using hfew


/-- **C5** witness: a malformed digest (no decodable bytes) is rejected. -/
theorem C5_invalid_seed_material_witness :
    (seedPRNG "zzzzzzzz").toOption = none :=
  (C5_invalid_seed_material "zzzzzzzz").mpr (by decide)

/-! ## Claim theorems for the generator -/

/-- **C3**: one draw performs exactly the xorshift32 update —
`x ^= x << 13` truncated to 32 bits, `x ^= x >>> 17` as a logical shift,
`x ^= x << 5` truncated to 32 bits — stores the result as the new state,
and returns `newState / 2 ^ 32`, a value in `[0, 1)`. -/
theorem C3_generator_draw (g : Xorshift32) (hg : g.state < 2 ^ 32) :
    nextIntState g.state =
      (let x1 := g.state ^^^ (g.state <<< 13) % 2 ^ 32
       let x2 := x1 ^^^ x1 >>> 17
       x2 ^^^ (x2 <<< 5) % 2 ^ 32) ∧
    (g.rand).2.state = nextIntState g.state ∧
    (g.rand).1 = ((nextIntState g.state : Nat) : ℚ) / 2 ^ 32 ∧
    0 ≤ (g.rand).1 ∧ (g.rand).1 < 1 := by
  refine ⟨rfl, rfl, rfl, ?_, ?_⟩
  · show (0 : ℚ) ≤ ((nextIntState g.state : Nat) : ℚ) / 2 ^ 32
    positivity
  · show ((nextIntState g.state : Nat) : ℚ) / 2 ^ 32 < 1
    rw [div_lt_one (by positivity)]
    exact_mod_cast nextIntState_lt g.state hg

/-- **C3** witness: the draw facts at the concrete state 1. -/
theorem C3_generator_draw_witness :
    (1 : Nat) < 2 ^ 32 ∧ (Xorshift32.mk 1).rand.1 < 1 :=
  ⟨by decide, (C3_generator_draw ⟨1⟩ (by decide)).2.2.2.2⟩

/-- **C9**: the generator state is never zero — construction replaces a
zero seed by 1, one xorshift step maps every non-zero 32-bit state to a
non-zero state, and hence every state reachable by iterated draws from a
constructed generator is non-zero. -/
theorem C9_state_never_zero :
    (∀ seed : Nat, (mkXorshift32 seed).state ≠ 0) ∧
    (∀ s : Nat, s ≠ 0 → s < 2 ^ 32 → nextIntState s ≠ 0) ∧
    (∀ seed n : Nat, (advance (mkXorshift32 seed) n).state ≠ 0) :=
  ⟨mkXorshift32_state_ne_zero, nextIntState_ne_zero,
   fun seed n => (advance_state_ne_zero seed n).1⟩

/-- **C9** witness: concrete instances of each conjunct. -/
theorem C9_state_never_zero_witness :
    (mkXorshift32 0).state ≠ 0 ∧ nextIntState 7 ≠ 0 ∧
      (advance (mkXorshift32 0) 3).state ≠ 0 :=
  ⟨C9_state_never_zero.1 0, C9_state_never_zero.2.1 7 (by decide) (by decide),
   C9_state_never_zero.2.2 0 3⟩

/-! ## Path-loop lemmas -/

/-- One unfolding of the row loop: the peg at index `min pos r` of row
`r` is selected, the effective bias is the clamped `leftBias + adj`, one
fresh draw decides, `L` holds `pos` and `R` increments it. -/
theorem pathStep_succ (pm : PegMap) (adj : ℚ) (g : Xorshift32) (fuel r pos : Nat) :
    pathStep pm adj g (fuel + 1) r pos =
      (if (g.rand).1 < clamp01 ((pegAt pm r (min pos r)).leftBias + adj) then
        (⟨(pathStep pm adj (g.rand).2 fuel (r + 1) pos).1.binIndex,
          .L :: (pathStep pm adj (g.rand).2 fuel (r + 1) pos).1.path⟩,
         (pathStep pm adj (g.rand).2 fuel (r + 1) pos).2)
      else
        (⟨(pathStep pm adj (g.rand).2 fuel (r + 1) (pos + 1)).1.binIndex,
          .R :: (pathStep pm adj (g.rand).2 fuel (r + 1) (pos + 1)).1.path⟩,
         (pathStep pm adj (g.rand).2 fuel (r + 1) (pos + 1)).2)) := rfl

/-- The row loop emits one decision per remaining row, and its final
counter is the starting counter plus the number of `R` decisions. -/
theorem pathStep_invariants (pm : PegMap) (adj : ℚ) :
    ∀ (fuel r pos : Nat) (g : Xorshift32),
      (pathStep pm adj g fuel r pos).1.path.length = fuel ∧
      (pathStep pm adj g fuel r pos).1.binIndex =
        pos + (pathStep pm adj g fuel r pos).1.path.count .R := by
  intro fuel
  induction fuel with
  | zero =>
    intro r pos g
    exact ⟨rfl, by simp [pathStep]⟩
  | succ n ih =>
    intro r pos g
    rw [pathStep_succ]
    split
    · obtain ⟨h1, h2⟩ := ih (r + 1) pos (g.rand).2
      simp [h1, h2, List.count_cons]
    · obtain ⟨h1, h2⟩ := ih (r + 1) (pos + 1) (g.rand).2
      simp [h1, h2, List.count_cons]
      omega

/-- **C1**: `calculatePath` (as reached from `runPlinkoGame`) iterates
all 12 rows in order; each row selects peg `min pos r`, compares one
fresh draw to `clamp(leftBias + (dropColumn - 6) * 0.01, 0, 1)`, records
`L` (holding `pos`) below the bias and `R` (incrementing `pos`)
otherwise; the returned `binIndex` is the final `pos`, equals the count
of `R` decisions in the returned path, the path has length 12, and
`binIndex ≤ 12`. -/
theorem C1_path_resolution (g0 : Xorshift32) (dropColumn : ℤ) :
    (runPlinkoGame g0 dropColumn).1.path.length = GAME_ROWS ∧
    (runPlinkoGame g0 dropColumn).1.binIndex =
      (runPlinkoGame g0 dropColumn).1.path.count .R ∧
    (runPlinkoGame g0 dropColumn).1.binIndex ≤ GAME_ROWS ∧
    (runPlinkoGame g0 dropColumn).1.path =
      (calculatePath (createPegMap g0).2 (createPegMap g0).1 dropColumn).1.path ∧
    leftBiasAdj dropColumn = ((dropColumn : ℚ) - 6) * (1 / 100) ∧
    (∀ (pm : PegMap) (g : Xorshift32) (fuel r pos : Nat),
      pathStep pm (leftBiasAdj dropColumn) g (fuel + 1) r pos =
        (if (g.rand).1 <
            clamp01 ((pegAt pm r (min pos r)).leftBias + leftBiasAdj dropColumn) then
          (⟨(pathStep pm (leftBiasAdj dropColumn) (g.rand).2 fuel (r + 1) pos).1.binIndex,
            .L :: (pathStep pm (leftBiasAdj dropColumn) (g.rand).2 fuel (r + 1) pos).1.path⟩,
           (pathStep pm (leftBiasAdj dropColumn) (g.rand).2 fuel (r + 1) pos).2)
        else
          (⟨(pathStep pm (leftBiasAdj dropColumn) (g.rand).2 fuel
               (r + 1) (pos + 1)).1.binIndex,
            .R :: (pathStep pm (leftBiasAdj dropColumn) (g.rand).2 fuel
               (r + 1) (pos + 1)).1.path⟩,
           (pathStep pm (leftBiasAdj dropColumn) (g.rand).2 fuel (r + 1) (pos + 1)).2))) := by
  obtain ⟨h1, h2⟩ := pathStep_invariants (createPegMap g0).1 (leftBiasAdj dropColumn)
    GAME_ROWS 0 0 (createPegMap g0).2
  refine ⟨h1, by simpa using h2, ?_, rfl, ?_, ?_⟩
  · have hpath : (runPlinkoGame g0 dropColumn).1.path.length = GAME_ROWS := h1
    have hbin : (runPlinkoGame g0 dropColumn).1.binIndex =
        (runPlinkoGame g0 dropColumn).1.path.count .R := by simpa using h2
    have hcount : (runPlinkoGame g0 dropColumn).1.path.count .R ≤
        (runPlinkoGame g0 dropColumn).1.path.length := List.count_le_length _ _
    omega
  · unfold leftBiasAdj GAME_ROWS
    norm_num
  · exact fun pm g fuel r pos => pathStep_succ pm (leftBiasAdj dropColumn) g fuel r pos

/-! ## Board-generation closed form -/

set_option maxRecDepth 10000 in
/-- **C8**: board generation produces, for every seeded generator, row
`r` with exactly `r + 1` entries, each entry's stored bias being
`0.5 + (d - 0.5) * 0.2` rounded to 6 decimal places for the fresh draw
`d` whose stream position is row-major (`r * (r + 1) / 2 + p`), and
leaves the generator advanced by all 78 draws. -/
theorem C8_board_generation (g : Xorshift32) :
    createPegMap g = (pegMapFormula g, advance g 78) ∧
    (createPegMap g).1.length = GAME_ROWS ∧
    ∀ r < GAME_ROWS, ((createPegMap g).1.getD r []).length = r + 1 := by
  have hcf : createPegMap g = (pegMapFormula g, advance g 78) := rfl
  refine ⟨hcf, ?_, ?_⟩
  · rw [hcf]
    simp [pegMapFormula, GAME_ROWS]
  · intro r hr
    rw [hcf]
    unfold pegMapFormula
    rw [List.getD_eq_getElem _ _ (by simpa [GAME_ROWS] using hr)]
    simp

/-- **C8** witness: the row-shape fact applied at a concrete generator
and row. -/
theorem C8_board_generation_witness :
    3 < GAME_ROWS ∧ ((createPegMap ⟨1⟩).1.getD 3 []).length = 3 + 1 :=
  ⟨by decide, (C8_board_generation ⟨1⟩).2.2 3 (by decide)⟩

/-! ## Missing range validation (C2) -/

set_option maxRecDepth 100000 in
/-- **C2** counterexample: the full verify pipeline at the out-of-range
`dropColumn = 13` is not rejected — it returns a complete result whose
path has all 12 decisions. -/
theorem C2_counterexample :
    (GETverify "a" "b" "c" "13").toOption.map (fun r => r.path.length) =
      some GAME_ROWS := by with_unfolding_all decide

/-- **C2** (amended): no range validation of `dropColumn` exists; for any
out-of-range value the simulation proceeds (the only guards are the
route's presence and `isNaN` checks) and returns a complete result with
a 12-decision path and `binIndex ≤ 12`. -/
theorem C2_no_range_validation (g : Xorshift32) (pm : PegMap) (dropColumn : ℤ)
    (_h : dropColumn < 0 ∨ 12 < dropColumn) :
    (calculatePath g pm dropColumn).1.path.length = GAME_ROWS ∧
    (calculatePath g pm dropColumn).1.binIndex ≤ GAME_ROWS := by
  obtain ⟨h1, h2⟩ := pathStep_invariants pm (leftBiasAdj dropColumn) GAME_ROWS 0 0 g
  refine ⟨h1, ?_⟩
  have hcount : (calculatePath g pm dropColumn).1.path.count .R ≤
      (calculatePath g pm dropColumn).1.path.length := List.count_le_length _ _
  have h2' : (calculatePath g pm dropColumn).1.binIndex =
      (calculatePath g pm dropColumn).1.path.count .R := by simpa using h2
  have h1' : (calculatePath g pm dropColumn).1.path.length = GAME_ROWS := h1
  omega

/-- **C2** witness: the amended theorem at `dropColumn = 13`. -/
theorem C2_no_range_validation_witness :
    ((13 : ℤ) < 0 ∨ (12 : ℤ) < 13) ∧
      (calculatePath ⟨1⟩ [] 13).1.path.length = GAME_ROWS :=
  ⟨by decide, (C2_no_range_validation ⟨1⟩ [] 13 (by decide)).1⟩

/-! ## Board/hash independence from the drop column (C10) -/

/-- **C10**: two runs from the same generator state with different drop
columns produce the identical board and board hash — the drop column
only enters path resolution, after the hash is computed. -/
theorem C10_board_independent_of_dropColumn (g : Xorshift32) (dc1 dc2 : ℤ) :
    (runPlinkoGame g dc1).1.pegMap = (runPlinkoGame g dc2).1.pegMap ∧
    (runPlinkoGame g dc1).1.pegMapHash = (runPlinkoGame g dc2).1.pegMapHash :=
  ⟨rfl, rfl⟩

/-! ## Commitment and seed-combiner claims -/

/-- **C6**: the commitment is the SHA-256 hex digest of the UTF-8 bytes
of `secret || ":" || nonce`, and both implementations
(`commitHexFromParts` and `getCommitHex`) agree. -/
theorem C6_commitment_derivation (secret nonce : String) :
    commitHexFromParts secret nonce =
      bytesToHex (sha256Bytes (utf8Encode (secret ++ ":" ++ nonce))) ∧
    getCommitHex secret nonce = commitHexFromParts secret nonce :=
  ⟨rfl, rfl⟩

/-- **C7**: both seed combiners return the SHA-256 hex digest of the
UTF-8 bytes of `secret || ":" || playerValue || ":" || nonce`, and are
equal as functions. -/
theorem C7_seed_combiner_equivalence (secret playerValue nonce : String) :
    combinedSeedFromParts secret playerValue nonce =
      bytesToHex (sha256Bytes (utf8Encode
        (secret ++ ":" ++ playerValue ++ ":" ++ nonce))) ∧
    getCombinedSeed = combinedSeedFromParts :=
  ⟨rfl, rfl⟩

/-! ## The spec's §8 concrete scenario, checked against the embedding -/

set_option maxRecDepth 100000 in
/-- §8 test vector: the commitment digest. -/
theorem testVector_commitment :
    commitHexFromParts
      "b2a5f3f32a4d9c6ee7a8c1d33456677890abcdeffedcba0987654321ffeeddcc" "42" =
      "bb9acdc67f3f18f3345236a01f0e5072596657a9005c7d8a22cff061451a6b34" := by decide

set_option maxRecDepth 100000 in
/-- §8 test vector: the combined-seed digest. -/
theorem testVector_combinedSeed :
    combinedSeedFromParts
      "b2a5f3f32a4d9c6ee7a8c1d33456677890abcdeffedcba0987654321ffeeddcc"
      "candidate-hello" "42" =
      "e1dddf77de27d395ea2be2ed49aa2a59bd6bf12ee8d350c16c008abd406c07e0" := by decide

/-- §8 test vector: seeding from the combined seed digest gives state
`0xe1dddf77`. -/
theorem testVector_seedState :
    (seedPRNG "e1dddf77de27d395ea2be2ed49aa2a59bd6bf12ee8d350c16c008abd406c07e0").toOption =
      some ⟨3789414263⟩ := by decide

/-- §8 test vector: the first five draws, rounded to 10 decimal places. -/
theorem testVector_draws :
    (List.range 5).map (fun i => round (drawValue ⟨3789414263⟩ i * 10 ^ 10)) =
      [1106166649, 7625129214, 439292176, 4578678815, 3438999297] := by
  with_unfolding_all decide

set_option maxRecDepth 4000 in
/-- §8 test vector: the first board entries and the outcome bin of a
centre drop (biases stated as reduced numerator/denominator pairs:
`0.422123`, `0.552503`, `0.408786`, `0.491574`). -/
theorem testVector_board_and_outcome :
    (pegAt (createPegMap ⟨3789414263⟩).1 0 0).leftBias.num = 422123 ∧
    (pegAt (createPegMap ⟨3789414263⟩).1 0 0).leftBias.den = 1000000 ∧
    (pegAt (createPegMap ⟨3789414263⟩).1 1 0).leftBias.num = 552503 ∧
    (pegAt (createPegMap ⟨3789414263⟩).1 1 0).leftBias.den = 1000000 ∧
    (pegAt (createPegMap ⟨3789414263⟩).1 1 1).leftBias.num = 204393 ∧
    (pegAt (createPegMap ⟨3789414263⟩).1 1 1).leftBias.den = 500000 ∧
    (pegAt (createPegMap ⟨3789414263⟩).1 2 0).leftBias.num = 245787 ∧
    (pegAt (createPegMap ⟨3789414263⟩).1 2 0).leftBias.den = 500000 ∧
    (calculatePath (createPegMap ⟨3789414263⟩).2
      (createPegMap ⟨3789414263⟩).1 6).1.binIndex = 6 := by with_unfolding_all decide

end Plinko
